import Mathlib

/-!
Shallow embedding of `source/server configuration.js` from the
`universal-webpack` repository, together with proofs about its two core
components: the externality classifier `is_external` and the loader-chain
normalizer (the per-entry body of the `module.loaders` loop in
`configuration`, plus `parse_loader`, `stringify_loader`,
`is_style_loader`).

JavaScript string primitives (`indexOf`, `substring`, `lastIndexOf`,
`split`) are embedded with their exact JS semantics (`-1` for "not found",
clamping `substring`), because the behaviour of `parse_loader` depends on
them in detail.
-/

namespace UniversalWebpack

/-- JS `s.indexOf(c)` for a single-character needle: index of the first
occurrence, `-1` if absent. -/
def jsIndexOfChar (s : String) (c : Char) : Int :=
  match s.toList.findIdx? (fun x => x == c) with
  | some i => (i : Int)
  | none => -1

/-- `true` when the pattern list `t` occurs in `l` starting at position `i`. -/
def occursAt (l t : List Char) (i : Nat) : Bool :=
  t.isPrefixOf (l.drop i)

/-- JS `s.indexOf(sub)` for a string needle: index of the first occurrence,
`-1` if absent. -/
def jsIndexOfStr (s sub : String) : Int :=
  match (List.range (s.toList.length + 1)).filter (occursAt s.toList sub.toList) with
  | [] => -1
  | i :: _ => (i : Int)

/-- JS `s.lastIndexOf(sub)`: index of the last occurrence, `-1` if absent. -/
def jsLastIndexOfStr (s sub : String) : Int :=
  match ((List.range (s.toList.length + 1)).filter (occursAt s.toList sub.toList)).getLast? with
  | some i => (i : Int)
  | none => -1

/-- JS `s.substring(a, b)`: both ends clamped into `[0, s.length]` and
swapped when out of order. -/
def jsSubstring (s : String) (a b : Int) : String :=
  let n := s.toList.length
  let a' := min (a.toNat) n
  let b' := min (b.toNat) n
  let lo := min a' b'
  let hi := max a' b'
  ((s.toList.drop lo).take (hi - lo)).asString

/-- JS `s.substring(a)` (single-argument form). -/
def jsSubstringFrom (s : String) (a : Int) : String :=
  jsSubstring s a (s.toList.length)

/-- Accumulator loop for `jsSplitChar`. -/
def jsSplitCharAux (sep : Char) : List Char → List Char → List String
  | [], acc => [acc.reverse.asString]
  | c :: rest, acc =>
    if c == sep then acc.reverse.asString :: jsSplitCharAux sep rest []
    else jsSplitCharAux sep rest (c :: acc)

/-- JS `s.split(sep)` for a single-character separator: `"a!!b"` gives
`["a", "", "b"]` and `""` gives `[""]`. -/
def jsSplitChar (s : String) (sep : Char) : List String :=
  jsSplitCharAux sep s.toList []

/-- Modelled from the spec: the query-string codec collaborator (Node's
`querystring.parse`, an external capability, §6), parsing
ampersand-delimited `key=value` pairs into an ordered mapping; a part
without `=` maps to the empty value, and percent-decoding is omitted
(the claims exercise only plain tokens). -/
def querystring_parse (s : String) : List (String × String) :=
  if s == "" then []
  else
    ((jsSplitChar s '&').filter (fun part => !(part == ""))).map (fun part =>
      if jsIndexOfChar part '=' ≥ 0 then
        (jsSubstring part 0 (jsIndexOfChar part '='),
         jsSubstringFrom part (jsIndexOfChar part '=' + 1))
      else
        (part, ""))

/-- Modelled from the spec: the query-string codec collaborator (Node's
`querystring.stringify`), serializing a mapping to `key=value` pairs
joined by `&`. -/
def querystring_stringify (q : List (String × String)) : String :=
  String.intercalate "&" (q.map (fun kv => kv.1 ++ "=" ++ kv.2))

/-- Modelled from the spec: `starts_with` from the repository's `helpers`
module (not under `src/`); the spec reads it as "`request` starts with
`pattern + \"/\"`", i.e. a plain prefix test. -/
def starts_with (s p : String) : Bool :=
  p.toList.isPrefixOf s.toList

/-- Modelled from the spec: `ends_with` from the repository's `helpers`
module (not under `src/`); the spec reads it as "stripping a trailing
`-loader` suffix if present", i.e. a plain suffix test. -/
def ends_with (s suffix : String) : Bool :=
  suffix.toList.isSuffixOf s.toList

/-- A raw loader entry inside a chain: either a bare string, or a
structured object with `loader` and (optional) `query` fields. -/
inductive LoaderSpec where
  | str (s : String)
  | obj (loader : String) (query : Option (List (String × String)))
deriving DecidableEq, Repr

/-- The `{ name, query }` record produced by `parse_loader`; `query` is
`none` when the JS leaves it `undefined`. -/
structure LoaderInfo where
  name : String
  query : Option (List (String × String))
deriving DecidableEq, Repr

/-- `parse_loader` (lines 151–179): converts a loader string or object into
a `{ name, query }` structure. The string branch mirrors the source's
statement order exactly: `name` is truncated at the first `?` *before*
`query` is computed from it. -/
def parse_loader (loader : LoaderSpec) : LoaderInfo :=
  match loader with
  | .obj l q => { name := l, query := q }
  | .str s =>
    if jsIndexOfChar s '?' ≥ 0 then
      let name := jsSubstring s 0 (jsIndexOfChar s '?')
      let query := querystring_parse (jsSubstringFrom name (jsIndexOfChar name '?' + 1))
      { name := name, query := some query }
    else
      { name := s, query := none }

/-- `stringify_loader` (lines 182–185): `name`, then `?` + stringified
query when the `query` field is present (a present-but-empty mapping is a
truthy JS object, hence still appends `?`). -/
def stringify_loader (loader : LoaderInfo) : String :=
  match loader.query with
  | some q => loader.name ++ "?" ++ querystring_stringify q
  | none => loader.name

/-- `is_style_loader` (lines 188–198): parse the entry, strip a trailing
`-loader` (at its last occurrence, as `lastIndexOf` does), and compare
with `"style"`. -/
def is_style_loader (loader : LoaderSpec) : Bool :=
  let name := (parse_loader loader).name
  let name :=
    if ends_with name "-loader" then
      jsSubstring name 0 (jsLastIndexOfStr name "-loader")
    else
      name
  name == "style"

/-- Lines 96–109 of `configuration`: pick out the first entry of the chain
for which `is_style_loader` holds (`filter(...)[0]`), re-parse it, fix the
name to `"fake-style-loader"`, and write it back at `indexOf` of the picked
entry. When no entry qualifies the chain is untouched. -/
def substitute_style_loader (loaders : List LoaderSpec) : List LoaderSpec :=
  match (loaders.filter is_style_loader).head? with
  | none => loaders
  | some style_loader =>
    let fake_style_loader := parse_loader style_loader
    let fake_style_loader := { fake_style_loader with name := "fake-style-loader" }
    loaders.set (loaders.indexOf style_loader) (.str (stringify_loader fake_style_loader))

/-- An element of `configuration.module.loaders`: a JS object whose
`loader` (string) and `loaders` (array) fields may each be present or
absent. -/
structure ModuleLoader where
  loader : Option String
  loaders : Option (List LoaderSpec)
deriving DecidableEq, Repr

/-- The marker substring recognizing `ExtractTextPlugin` entries
(line 85). -/
def extract_text_marker : String := "extract-text-webpack-plugin/loader.js"

/-- The error message thrown at line 79. -/
def missing_loader_error : String :=
  "No webpack loader specified for this `module.loaders` element"

/-- Lines 72–110 of `configuration`, body of the `module.loaders` loop, for
one entry. An entry with a `loaders` field keeps its fields and goes
straight to style-loader substitution; otherwise a falsy (absent or empty)
`loader` field throws, an entry whose `loader` contains the
`ExtractTextPlugin` marker is skipped entirely (`continue`), and any other
entry has its `loader` split on `!` into a `loaders` chain (the `loader`
field being deleted) before substitution. -/
def normalize_loader_entry (l : ModuleLoader) : Except String ModuleLoader :=
  match l.loaders with
  | some loaders => .ok { l with loaders := some (substitute_style_loader loaders) }
  | none =>
    match l.loader with
    | none => .error missing_loader_error
    | some s =>
      if s == "" then .error missing_loader_error
      else if jsIndexOfStr s extract_text_marker ≥ 0 then .ok l
      else
        .ok { loader := none,
              loaders := some (substitute_style_loader ((jsSplitChar s '!').map .str)) }

/-- An exclusion pattern from `settings.exclude_from_externals`: a string,
a regular expression (embedded as its `test` predicate on strings), or any
other JS value — represented by a number, the spec's own example of a value
that is neither a string nor a `RegExp`. -/
inductive ExclusionPattern where
  | str (s : String)
  | regexp (test : String → Bool)
  | num (n : Int)

/-- Lines 205–209 of `is_external`: the package name is the request cut at
the first `/` when one occurs, the whole request otherwise. -/
def package_name (request : String) : String :=
  if jsIndexOfChar request '/' ≥ 0 then
    jsSubstring request 0 (jsIndexOfChar request '/')
  else
    request

/-- One iteration of the exclusion loop (lines 239–264): does this pattern
match the full request? A string matches by equality or by
`pattern + "/"` prefix; a regular expression by its test; any other value
matches nothing (the loop throws on it instead). -/
def pattern_matches (request : String) : ExclusionPattern → Bool
  | .str s => request == s || starts_with request (s ++ "/")
  | .regexp t => t request
  | .num _ => false

/-- `true` for the pattern kinds the exclusion loop accepts (string or
regular expression). -/
def pattern_well_typed : ExclusionPattern → Bool
  | .str _ => true
  | .regexp _ => true
  | .num _ => false

/-- The exclusion loop of `is_external` (lines 237–265): first match wins
with `false` (non-external); a pattern that is neither a string nor a
regular expression throws, the error naming that pattern; an exhausted
list falls through to `true` (line 268). -/
def check_exclusions (request : String) : List ExclusionPattern → Except ExclusionPattern Bool
  | [] => .ok true
  | p :: rest =>
    match p with
    | .str s =>
      if request == s || starts_with request (s ++ "/") then .ok false
      else check_exclusions request rest
    | .regexp t =>
      if t request then .ok false
      else check_exclusions request rest
    | .num n => .error (.num n)

/-- `is_external` (lines 201–269). The package-name-validity collaborator
(`validate-npm-package-name`'s `validForNewPackages`) is passed in as the
predicate `valid`; the alias table is the key list of
`configuration.resolve.alias` when that object exists (`none` models an
absent `resolve`/`alias`); the exclusion list is
`settings.exclude_from_externals`, `none` when absent. Returns `.ok` for a
normal classification and `.error` for the thrown invalid-pattern error,
which names the offending pattern. -/
def is_external (valid : String → Bool) (request : String)
    (resolve_alias : Option (List String))
    (exclude_from_externals : Option (List ExclusionPattern)) :
    Except ExclusionPattern Bool :=
  let pkg := package_name request
  if !(valid pkg) then .ok false
  else
    let alias_hit :=
      match resolve_alias with
      | some keys => keys.contains pkg
      | none => false
    if alias_hit then .ok false
    else
      match exclude_from_externals with
      | some patterns => check_exclusions request patterns
      | none => .ok true

/-! Helper lemmas about the exclusion loop and the classifier. -/

/-- Unfolding of the exclusion loop at a string pattern. -/
lemma check_exclusions_cons_str (request s : String) (rest : List ExclusionPattern) :
    check_exclusions request (.str s :: rest) =
      if request == s || starts_with request (s ++ "/") then .ok false
      else check_exclusions request rest := rfl

/-- Unfolding of the exclusion loop at a regular-expression pattern. -/
lemma check_exclusions_cons_regexp (request : String) (t : String → Bool)
    (rest : List ExclusionPattern) :
    check_exclusions request (.regexp t :: rest) =
      if t request then .ok false else check_exclusions request rest := rfl

/-- Unfolding of the exclusion loop at an ill-typed pattern. -/
lemma check_exclusions_cons_num (request : String) (n : Int)
    (rest : List ExclusionPattern) :
    check_exclusions request (.num n :: rest) = .error (.num n) := rfl

/-- An invalid package name decides the classification on its own. -/
lemma is_external_of_invalid (valid : String → Bool) (request : String)
    (resolve_alias : Option (List String))
    (exclude : Option (List ExclusionPattern))
    (h : valid (package_name request) = false) :
    is_external valid request resolve_alias exclude = .ok false := by
  simp [is_external, h]

/-- When the classifier gets past the validity and alias checks, it is the
exclusion loop that answers (an absent list defaulting to `.ok true`). -/
lemma is_external_eq_exclusions (valid : String → Bool) (request : String)
    (resolve_alias : Option (List String))
    (exclude : Option (List ExclusionPattern))
    (hv : valid (package_name request) = true)
    (ha : ∀ keys, resolve_alias = some keys → package_name request ∉ keys) :
    is_external valid request resolve_alias exclude =
      match exclude with
      | some ps => check_exclusions request ps
      | none => .ok true := by
  unfold is_external
  cases resolve_alias with
  | none => simp [hv]
  | some keys => simp [hv, ha keys rfl]

/-- An exclusion list of well-typed patterns none of which matches falls
through to `.ok true`. -/
lemma check_exclusions_all_miss (request : String) (ps : List ExclusionPattern)
    (h : ∀ p ∈ ps, pattern_well_typed p = true ∧ pattern_matches request p = false) :
    check_exclusions request ps = .ok true := by
  induction ps with
  | nil => rfl
  | cons p rest ih =>
    have hp := h p (List.mem_cons_self p rest)
    have hrest : ∀ q ∈ rest, pattern_well_typed q = true ∧ pattern_matches request q = false :=
      fun q hq => h q (List.mem_cons_of_mem p hq)
    cases p with
    | str s =>
      have hc : (request == s || starts_with request (s ++ "/")) = false := hp.2
      rw [check_exclusions_cons_str, hc]
      simpa using ih hrest
    | regexp t =>
      have hc : t request = false := hp.2
      rw [check_exclusions_cons_regexp, hc]
      simpa using ih hrest
    | num n =>
      exact absurd hp.1 (by simp [pattern_well_typed])

/-- A matching pattern preceded only by well-typed patterns makes the
exclusion loop answer `.ok false`. -/
lemma check_exclusions_match (request : String) (pre : List ExclusionPattern)
    (q : ExclusionPattern) (post : List ExclusionPattern)
    (hq : pattern_matches request q = true)
    (hpre : ∀ p ∈ pre, pattern_well_typed p = true) :
    check_exclusions request (pre ++ q :: post) = .ok false := by
  induction pre with
  | nil =>
    cases q with
    | str s =>
      have hc : (request == s || starts_with request (s ++ "/")) = true := hq
      rw [List.nil_append, check_exclusions_cons_str, if_pos hc]
    | regexp t =>
      have hc : t request = true := hq
      rw [List.nil_append, check_exclusions_cons_regexp, if_pos hc]
    | num n => simp [pattern_matches] at hq
  | cons p rest ih =>
    have hp : pattern_well_typed p = true := hpre p (List.mem_cons_self p rest)
    have hrest : ∀ r ∈ rest, pattern_well_typed r = true :=
      fun r hr => hpre r (List.mem_cons_of_mem p hr)
    cases p with
    | str s =>
      rw [List.cons_append, check_exclusions_cons_str]
      by_cases hc : (request == s || starts_with request (s ++ "/")) = true
      · rw [if_pos hc]
      · rw [if_neg hc]
        exact ih hrest
    | regexp t =>
      rw [List.cons_append, check_exclusions_cons_regexp]
      by_cases hc : t request = true
      · rw [if_pos hc]
      · rw [if_neg hc]
        exact ih hrest
    | num n =>
      exact absurd hp (by simp [pattern_well_typed])

/-- A package name equal to an alias key decides the classification on its
own (after the validity check, which also answers `.ok false` when it
fails). -/
lemma is_external_of_alias (valid : String → Bool) (request : String)
    (keys : List String) (exclude : Option (List ExclusionPattern))
    (h : package_name request ∈ keys) :
    is_external valid request (some keys) exclude = .ok false := by
  by_cases hv : valid (package_name request) = true
  · simp [is_external, hv, h]
  · have hv' : valid (package_name request) = false := by
      cases hvb : valid (package_name request) with
      | false => rfl
      | true => exact absurd hvb hv
    exact is_external_of_invalid valid request (some keys) exclude hv'

/-- C1: a request whose derived package name fails the
package-name-validity collaborator is classified internal
(`.ok false`), whatever the alias table and the exclusion list. -/
theorem C1_invalid_package_name_is_internal (valid : String → Bool) (request : String)
    (resolve_alias : Option (List String))
    (exclude : Option (List ExclusionPattern))
    (h : valid (package_name request) = false) :
    is_external valid request resolve_alias exclude = .ok false :=
  is_external_of_invalid valid request resolve_alias exclude h

/-- Witness for C1: with a validator rejecting names that start with a dot,
the request `"./foo"` (package name `"."`) is classified internal. -/
theorem C1_witness :
    (fun s => !(starts_with s ".")) (package_name "./foo") = false ∧
    is_external (fun s => !(starts_with s ".")) "./foo" (some ["react"])
      (some [.str "lodash"]) = .ok false :=
  ⟨by decide,
   C1_invalid_package_name_is_internal (fun s => !(starts_with s ".")) "./foo"
     (some ["react"]) (some [.str "lodash"]) (by decide)⟩

/-- C2: a request whose derived package name equals a key of the alias
table is classified internal (`.ok false`), whatever the validity
collaborator and the exclusion list answer. -/
theorem C2_alias_key_is_internal (valid : String → Bool) (request : String)
    (keys : List String) (exclude : Option (List ExclusionPattern))
    (h : package_name request ∈ keys) :
    is_external valid request (some keys) exclude = .ok false :=
  is_external_of_alias valid request keys exclude h

/-- Witness for C2: with `"lodash"` in the alias table, the otherwise
external request `"lodash/merge"` is classified internal. -/
theorem C2_witness :
    package_name "lodash/merge" ∈ ["react", "lodash"] ∧
    is_external (fun _ => true) "lodash/merge" (some ["react", "lodash"]) none = .ok false :=
  ⟨by decide,
   C2_alias_key_is_internal (fun _ => true) "lodash/merge" ["react", "lodash"] none (by decide)⟩

/-- C3 counterexample: the claim as stated fails, because an ill-typed
pattern placed before the matching one aborts the exclusion loop with an
error instead of letting the match classify the request internal: with the
list `[42, "lodash"]` and request `"lodash"`, the string pattern
`"lodash"` is in the list and matches the request, yet `is_external`
does not return `.ok false` (it throws, naming `42`). -/
theorem C3_counterexample :
    pattern_matches "lodash" (.str "lodash") = true ∧
    ExclusionPattern.str "lodash" ∈ [ExclusionPattern.num 42, .str "lodash"] ∧
    is_external (fun _ => true) "lodash" none
      (some [.num 42, .str "lodash"]) ≠ .ok false := by
  refine ⟨by decide, by simp, ?_⟩
  intro h
  rw [show is_external (fun _ => true) "lodash" none
        (some [ExclusionPattern.num 42, .str "lodash"]) = .error (.num 42) from rfl] at h
  exact Except.noConfusion h

/-- C3 (amended): for a request with a valid, non-aliased package name, if
some exclusion pattern matches the full request — by string equality, by
`pattern + "/"` prefix, or by a regular-expression test — and every
pattern placed before it is a string or a regular expression, then
`is_external` returns `.ok false`. -/
theorem C3_matching_exclusion_is_internal (valid : String → Bool) (request : String)
    (resolve_alias : Option (List String)) (pre : List ExclusionPattern)
    (q : ExclusionPattern) (post : List ExclusionPattern)
    (hv : valid (package_name request) = true)
    (ha : ∀ keys, resolve_alias = some keys → package_name request ∉ keys)
    (hq : pattern_matches request q = true)
    (hpre : ∀ p ∈ pre, pattern_well_typed p = true) :
    is_external valid request resolve_alias (some (pre ++ q :: post)) = .ok false := by
  rw [is_external_eq_exclusions valid request resolve_alias (some (pre ++ q :: post)) hv ha]
  exact check_exclusions_match request pre q post hq hpre

/-- Witness for C3: the request `"lodash/merge"` is matched by the string
pattern `"lodash"` through the `pattern + "/"` prefix rule, after a
non-matching regular expression, and classified internal. -/
theorem C3_witness :
    is_external (fun _ => true) "lodash/merge" none
      (some [.regexp (fun _ => false), .str "lodash"]) = .ok false :=
  C3_matching_exclusion_is_internal (fun _ => true) "lodash/merge" none
    [.regexp (fun _ => false)] (.str "lodash") []
    rfl
    (fun keys h => Option.noConfusion h)
    (by decide)
    (by intro p hp
        rw [List.mem_singleton] at hp
        subst hp
        rfl)

/-- C4 counterexample: the claim as stated fails, because a request
matching no exclusion pattern is not classified external when the list
holds an ill-typed pattern — the loop throws instead: with the list
`[42]` and request `"lodash"`, no pattern matches, yet `is_external` does
not return `.ok true`. -/
theorem C4_counterexample :
    pattern_matches "lodash" (.num 42) = false ∧
    is_external (fun _ => true) "lodash" none (some [.num 42]) ≠ .ok true := by
  refine ⟨rfl, ?_⟩
  intro h
  rw [show is_external (fun _ => true) "lodash" none
        (some [ExclusionPattern.num 42]) = .error (.num 42) from rfl] at h
  exact Except.noConfusion h

/-- C4 (amended): a request whose package name is valid, matches no alias
key, and matches no exclusion pattern — every pattern of the list being a
string or a regular expression — is classified external (`.ok true`); an
absent alias table or exclusion list, and an empty alias table or
exclusion list, are no-op inputs covered by the same statement. -/
theorem C4_no_rule_matched_is_external (valid : String → Bool) (request : String)
    (resolve_alias : Option (List String)) (exclude : Option (List ExclusionPattern))
    (hv : valid (package_name request) = true)
    (ha : ∀ keys, resolve_alias = some keys → package_name request ∉ keys)
    (he : ∀ ps, exclude = some ps →
      ∀ p ∈ ps, pattern_well_typed p = true ∧ pattern_matches request p = false) :
    is_external valid request resolve_alias exclude = .ok true := by
  rw [is_external_eq_exclusions valid request resolve_alias exclude hv ha]
  cases exclude with
  | none => rfl
  | some ps => exact check_exclusions_all_miss request ps (he ps rfl)

/-- Witness for C4: with an empty alias table and an empty exclusion list,
and again with both absent, the valid-name request `"lodash/merge"` is
classified external. -/
theorem C4_witness :
    is_external (fun _ => true) "lodash/merge" (some []) (some []) = .ok true ∧
    is_external (fun _ => true) "lodash/merge" none none = .ok true :=
  ⟨C4_no_rule_matched_is_external (fun _ => true) "lodash/merge" (some []) (some [])
     rfl
     (by intro keys h
         injection h with h1
         subst h1
         exact List.not_mem_nil _)
     (by intro ps h p hp
         injection h with h1
         subst h1
         exact absurd hp (List.not_mem_nil p)),
   C4_no_rule_matched_is_external (fun _ => true) "lodash/merge" none none
     rfl
     (fun keys h => Option.noConfusion h)
     (fun ps h => Option.noConfusion h)⟩

/-- The exclusion loop at a well-typed head pattern: answer `.ok false` on
a match, else continue. -/
lemma check_exclusions_cons_well_typed (request : String) (hd : ExclusionPattern)
    (rest : List ExclusionPattern) (h : pattern_well_typed hd = true) :
    check_exclusions request (hd :: rest) =
      if pattern_matches request hd then .ok false
      else check_exclusions request rest := by
  cases hd with
  | str s => rfl
  | regexp t => rfl
  | num n => simp [pattern_well_typed] at h

/-- The exclusion loop throws `p` exactly when the list decomposes as
well-typed non-matching patterns followed by the ill-typed `p`. -/
lemma check_exclusions_error_iff (request : String) (ps : List ExclusionPattern)
    (p : ExclusionPattern) :
    check_exclusions request ps = .error p ↔
      ∃ pre post, ps = pre ++ p :: post ∧ pattern_well_typed p = false ∧
        ∀ q ∈ pre, pattern_well_typed q = true ∧ pattern_matches request q = false := by
  induction ps with
  | nil =>
    constructor
    · intro h
      exact Except.noConfusion h
    · rintro ⟨pre, post, habs, -, -⟩
      exact absurd habs (by simp)
  | cons hd rest ih =>
    by_cases hwt_hd : pattern_well_typed hd = true
    · rw [check_exclusions_cons_well_typed request hd rest hwt_hd]
      by_cases hm : pattern_matches request hd = true
      · rw [if_pos hm]
        constructor
        · intro h
          exact Except.noConfusion h
        · rintro ⟨pre, post, hps, hwt, hall⟩
          cases pre with
          | nil =>
            injection hps with h1 h2
            subst h1
            simp [hwt_hd] at hwt
          | cons a pre' =>
            injection hps with h1 h2
            subst h1
            have := (hall hd (List.mem_cons_self _ _)).2
            simp [this] at hm
      · rw [if_neg hm]
        have hmf : pattern_matches request hd = false := by
          cases hb : pattern_matches request hd with
          | false => rfl
          | true => exact absurd hb hm
        rw [ih]
        constructor
        · rintro ⟨pre, post, hps, hwt, hall⟩
          refine ⟨hd :: pre, post, by rw [List.cons_append, hps], hwt, ?_⟩
          intro q hq
          rcases List.mem_cons.mp hq with h | h
          · subst h
            exact ⟨hwt_hd, hmf⟩
          · exact hall q h
        · rintro ⟨pre, post, hps, hwt, hall⟩
          cases pre with
          | nil =>
            injection hps with h1 h2
            subst h1
            simp [hwt_hd] at hwt
          | cons a pre' =>
            injection hps with h1 h2
            subst h1
            exact ⟨pre', post, h2, hwt, fun q hq => hall q (List.mem_cons_of_mem _ hq)⟩
    · cases hd with
      | str s => simp [pattern_well_typed] at hwt_hd
      | regexp t => simp [pattern_well_typed] at hwt_hd
      | num n =>
        rw [check_exclusions_cons_num]
        constructor
        · intro h
          injection h with h1
          refine ⟨[], rest, by rw [List.nil_append, h1], by rw [← h1]; rfl, ?_⟩
          intro q hq
          exact absurd hq (List.not_mem_nil q)
        · rintro ⟨pre, post, hps, hwt, hall⟩
          cases pre with
          | nil =>
            injection hps with h1 h2
            rw [← h1]
          | cons a pre' =>
            injection hps with h1 h2
            have ha := (hall a (List.mem_cons_self _ _)).1
            rw [← h1] at ha
            simp [pattern_well_typed] at ha

/-- C5: `is_external` throws an error naming pattern `p` exactly when the
earlier rules have not decided — the package name is valid and matches no
alias key — and the exclusion list reaches `p`, an entry that is neither a
string nor a regular expression, every pattern before it being a
well-typed non-match; in particular no error escapes once an earlier rule
(invalid name, alias hit, or an earlier matching pattern) has decided the
classification. -/
theorem C5_error_iff_reaches_ill_typed_pattern (valid : String → Bool) (request : String)
    (resolve_alias : Option (List String)) (exclude : Option (List ExclusionPattern))
    (p : ExclusionPattern) :
    is_external valid request resolve_alias exclude = .error p ↔
      valid (package_name request) = true ∧
      (∀ keys, resolve_alias = some keys → package_name request ∉ keys) ∧
      ∃ ps pre post, exclude = some ps ∧ ps = pre ++ p :: post ∧
        pattern_well_typed p = false ∧
        ∀ q ∈ pre, pattern_well_typed q = true ∧ pattern_matches request q = false := by
  by_cases hv : valid (package_name request) = true
  · by_cases hal : ∀ keys, resolve_alias = some keys → package_name request ∉ keys
    · rw [is_external_eq_exclusions valid request resolve_alias exclude hv hal]
      cases exclude with
      | none =>
        constructor
        · intro h
          exact Except.noConfusion h
        · rintro ⟨-, -, ps, pre, post, habs, -⟩
          exact Option.noConfusion habs
      | some ps =>
        rw [show (match some ps with
              | some qs => check_exclusions request qs
              | none => (.ok true : Except ExclusionPattern Bool)) =
            check_exclusions request ps from rfl]
        rw [check_exclusions_error_iff]
        constructor
        · rintro ⟨pre, post, hps, hwt, hall⟩
          exact ⟨hv, hal, ps, pre, post, rfl, hps, hwt, hall⟩
        · rintro ⟨-, -, ps', pre, post, hsome, hps, hwt, hall⟩
          injection hsome with h1
          subst h1
          exact ⟨pre, post, hps, hwt, hall⟩
    · push_neg at hal
      obtain ⟨keys, hk, hmem⟩ := hal
      subst hk
      rw [is_external_of_alias valid request keys exclude hmem]
      constructor
      · intro h
        exact Except.noConfusion h
      · rintro ⟨-, hno, -⟩
        exact absurd hmem (hno keys rfl)
  · have hv' : valid (package_name request) = false := by
      cases hvb : valid (package_name request) with
      | false => rfl
      | true => exact absurd hvb hv
    rw [is_external_of_invalid valid request resolve_alias exclude hv']
    constructor
    · intro h
      exact Except.noConfusion h
    · rintro ⟨hvt, -, -⟩
      exact absurd hvt hv

/-- Witness for C5: with the list `["react", 42]` and request `"lodash"`,
the string pattern does not match, the loop reaches the number `42`, and
the classifier throws the error naming it. -/
theorem C5_witness :
    is_external (fun _ => true) "lodash" none
      (some [.str "react", .num 42]) = .error (.num 42) :=
  (C5_error_iff_reaches_ill_typed_pattern (fun _ => true) "lodash" none
      (some [.str "react", .num 42]) (.num 42)).mpr
    ⟨rfl,
     fun keys h => Option.noConfusion h,
     [.str "react", .num 42], [.str "react"], [], rfl, rfl, rfl,
     by intro q hq
        rw [List.mem_singleton] at hq
        subst hq
        exact ⟨rfl, by decide⟩⟩

/-! Normalizer claims. -/

/-- C6: the claim is right and the code is wrong. `parse_loader` truncates
`name` at the first `?` *before* computing the query from it, so the query
is parsed from the truncated name instead of from the remainder after the
`?`: stringifying `{ name := "a", query := [("b", "c")] }` gives
`"a?b=c"`, but parsing that back yields query `[("a", "")]`, not
`[("b", "c")]` — the round trip fails at this input. -/
theorem C6_roundtrip_fails_at_failing_input :
    stringify_loader { name := "a", query := some [("b", "c")] } = "a?b=c" ∧
    parse_loader (.str (stringify_loader { name := "a", query := some [("b", "c")] })) =
      { name := "a", query := some [("a", "")] } ∧
    ({ name := "a", query := some [("a", "")] } : LoaderInfo) ≠
      { name := "a", query := some [("b", "c")] } :=
  ⟨rfl, rfl, by decide⟩

/-- C7: the claim is right and the code is wrong. Substituting the style
loader in the chain entry `"style-loader?modules=true"` should preserve
the query and yield `"fake-style-loader?modules=true"`, but because
`parse_loader` computes the query from the already-truncated name, the
code produces `"fake-style-loader?style-loader="` instead. -/
theorem C7_substitution_drops_query_at_failing_input :
    normalize_loader_entry { loader := some "style-loader?modules=true", loaders := none } =
      .ok { loader := none, loaders := some [.str "fake-style-loader?style-loader="] } ∧
    "fake-style-loader?style-loader=" ≠ "fake-style-loader?modules=true" :=
  ⟨rfl, by decide⟩

/-- An entry delivered by the head of the style filter satisfies the style
predicate. -/
lemma is_style_of_head_filter {l : List LoaderSpec} {sl : LoaderSpec}
    (h : (l.filter is_style_loader).head? = some sl) :
    is_style_loader sl = true := by
  have hmem : sl ∈ l.filter is_style_loader := by
    cases hf : l.filter is_style_loader with
    | nil => rw [hf] at h; exact Option.noConfusion h
    | cons x xs =>
      rw [hf, List.head?_cons] at h
      injection h with h1
      subst h1
      exact List.mem_cons_self x xs
  exact (List.mem_filter.mp hmem).2

/-- The position `indexOf` writes to is the position of the first style
entry of the chain. -/
lemma indexOf_head_filter_style (ls : List LoaderSpec) (sl : LoaderSpec)
    (h : (ls.filter is_style_loader).head? = some sl) :
    ls.indexOf sl = ls.findIdx is_style_loader := by
  induction ls with
  | nil => exact Option.noConfusion h
  | cons a t ih =>
    by_cases hs : is_style_loader a = true
    · rw [List.filter_cons_of_pos hs, List.head?_cons] at h
      injection h with h1
      subst h1
      rw [List.indexOf_cons_self, List.findIdx_cons, hs, cond_true]
    · rw [List.filter_cons_of_neg hs] at h
      have hsl : is_style_loader sl = true := is_style_of_head_filter h
      have hne : a ≠ sl := by
        intro e
        rw [e] at hs
        exact hs hsl
      have hsf : is_style_loader a = false := by
        cases hb : is_style_loader a with
        | false => rfl
        | true => exact absurd hb hs
      rw [List.indexOf_cons_ne t hne, List.findIdx_cons, hsf, cond_false, ih h]

/-- C8 counterexample: the claim as stated fails, because only the *first*
entry identified as a style loader is replaced: in the chain
`["style-loader", "style-loader"]` both entries are style loaders, yet
after substitution the second one is still `"style-loader"`. -/
theorem C8_counterexample :
    is_style_loader (.str "style-loader") = true ∧
    substitute_style_loader [.str "style-loader", .str "style-loader"] =
      [.str "fake-style-loader", .str "style-loader"] :=
  ⟨rfl, rfl⟩

/-- C8 (amended): substitution replaces the *first* entry identified as a
style loader (stripped name equal to `"style"`), at the position of that
first style entry, leaving the chain length and every other position
unchanged; a chain with no style entry is untouched; and the
pipe-delimited string `"babel-loader!style-loader!css-loader"` normalizes
to exactly 3 entries in original order with only the middle one
replaced. -/
theorem C8_first_style_entry_replaced_in_place (ls : List LoaderSpec) :
    (substitute_style_loader ls).length = ls.length ∧
    ((ls.filter is_style_loader).head? = none → substitute_style_loader ls = ls) ∧
    (∀ sl, (ls.filter is_style_loader).head? = some sl →
      substitute_style_loader ls =
        ls.set (ls.findIdx is_style_loader)
          (.str (stringify_loader { parse_loader sl with name := "fake-style-loader" })) ∧
      ∀ j, j ≠ ls.findIdx is_style_loader →
        (substitute_style_loader ls).get? j = ls.get? j) ∧
    normalize_loader_entry
      { loader := some "babel-loader!style-loader!css-loader", loaders := none } =
      .ok { loader := none,
            loaders := some [.str "babel-loader", .str "fake-style-loader",
                             .str "css-loader"] } := by
  refine ⟨?_, ?_, ?_, rfl⟩
  · unfold substitute_style_loader
    cases h : (ls.filter is_style_loader).head? with
    | none => rfl
    | some sl => exact List.length_set ls _ _
  · intro h
    unfold substitute_style_loader
    rw [h]
  · intro sl h
    have hidx := indexOf_head_filter_style ls sl h
    constructor
    · unfold substitute_style_loader
      rw [h, ← hidx]
    · intro j hj
      unfold substitute_style_loader
      rw [h]
      exact List.get?_set_ne _ _ (by rw [hidx]; exact Ne.symm hj)

/-- Witness for C8: in the three-entry chain only the middle (first style)
entry is replaced; position 0 and position 2 read back unchanged. -/
theorem C8_witness :
    substitute_style_loader [.str "babel-loader", .str "style-loader", .str "css-loader"] =
      ([.str "babel-loader", .str "style-loader", .str "css-loader"] : List LoaderSpec).set 1
        (.str "fake-style-loader") ∧
    (substitute_style_loader
        [.str "babel-loader", .str "style-loader", .str "css-loader"]).get? 2 =
      some (.str "css-loader") := by
  have h := C8_first_style_entry_replaced_in_place
    [.str "babel-loader", .str "style-loader", .str "css-loader"]
  have h1 := (h.2.2.1 (.str "style-loader") rfl).1
  have h2 := (h.2.2.1 (.str "style-loader") rfl).2 2 (by decide)
  exact ⟨h1, h2.trans (by decide)⟩

/-- C9 counterexample: the claim as stated fails, because an entry that
already exposes a `loaders` chain *is* still subjected to style-loader
substitution: the entry `{ loaders := ["style-loader"] }` comes out of
normalization with its chain rewritten to `["fake-style-loader"]`. -/
theorem C9_counterexample :
    normalize_loader_entry { loader := none, loaders := some [.str "style-loader"] } =
      .ok { loader := none, loaders := some [.str "fake-style-loader"] } ∧
    ({ loader := none, loaders := some [.str "fake-style-loader"] } : ModuleLoader) ≠
      { loader := none, loaders := some [.str "style-loader"] } :=
  ⟨rfl, by decide⟩

/-- C9 (amended): an entry that already exposes a chain field is not
split or otherwise reinterpreted — normalization only applies style-loader
substitution to its chain, keeping the `loader` field as it was — and it
passes through fully unchanged exactly when its chain has no style
entry. -/
theorem C9_chain_field_entry_only_substituted (l : ModuleLoader) (ls : List LoaderSpec)
    (h : l.loaders = some ls) :
    normalize_loader_entry l = .ok { l with loaders := some (substitute_style_loader ls) } ∧
    ((ls.filter is_style_loader).head? = none → normalize_loader_entry l = .ok l) := by
  obtain ⟨lo, lss⟩ := l
  dsimp only at h
  subst h
  refine ⟨rfl, ?_⟩
  intro hnone
  have hsub : substitute_style_loader ls = ls := by
    unfold substitute_style_loader
    rw [hnone]
  have base : normalize_loader_entry { loader := lo, loaders := some ls } =
      .ok { loader := lo, loaders := some (substitute_style_loader ls) } := rfl
  rw [base, hsub]

/-- Witness for C9: a pre-normalized chain with no style entry passes
through unchanged. -/
theorem C9_witness :
    normalize_loader_entry { loader := none, loaders := some [.str "css-loader"] } =
      .ok { loader := none, loaders := some [.str "css-loader"] } :=
  (C9_chain_field_entry_only_substituted
    { loader := none, loaders := some [.str "css-loader"] } [.str "css-loader"] rfl).2
    (by decide)

/-- C10 counterexample: the claim as stated fails, because the marker is
only consulted for entries *without* a chain field: an entry whose
`loader` string is exactly the `ExtractTextPlugin` marker but which also
carries a `loaders` chain holding a style loader is not returned
unchanged — its chain is rewritten. -/
theorem C10_counterexample :
    jsIndexOfStr "extract-text-webpack-plugin/loader.js" extract_text_marker ≥ 0 ∧
    normalize_loader_entry
      { loader := some "extract-text-webpack-plugin/loader.js",
        loaders := some [.str "style-loader"] } =
      .ok { loader := some "extract-text-webpack-plugin/loader.js",
            loaders := some [.str "fake-style-loader"] } ∧
    ({ loader := some "extract-text-webpack-plugin/loader.js",
       loaders := some [.str "fake-style-loader"] } : ModuleLoader) ≠
      { loader := some "extract-text-webpack-plugin/loader.js",
        loaders := some [.str "style-loader"] } :=
  ⟨by decide, rfl, by decide⟩

/-- C10 (amended): every entry *without* a chain field whose primary
loader string contains the `ExtractTextPlugin` marker substring is
returned by normalization byte-for-byte unchanged — no splitting, no
field removal, no style-loader substitution. -/
theorem C10_marker_entry_without_chain_untouched (l : ModuleLoader) (s : String)
    (h1 : l.loaders = none) (h2 : l.loader = some s)
    (h3 : jsIndexOfStr s extract_text_marker ≥ 0) :
    normalize_loader_entry l = .ok l := by
  obtain ⟨lo, lss⟩ := l
  dsimp only at h1 h2
  subst h1
  subst h2
  have hne : (s == "") = false := by
    cases hb : (s == "") with
    | false => rfl
    | true =>
      have hs : s = "" := eq_of_beq hb
      subst hs
      exact absurd h3 (by decide)
  simp [normalize_loader_entry, hne, h3]

/-- Witness for C10: an `ExtractTextPlugin` loader string (with its own
sub-loaders after `!`) and no chain field is skipped entirely. -/
theorem C10_witness :
    normalize_loader_entry
      { loader := some "extract-text-webpack-plugin/loader.js?q!style-loader",
        loaders := none } =
      .ok { loader := some "extract-text-webpack-plugin/loader.js?q!style-loader",
            loaders := none } :=
  C10_marker_entry_without_chain_untouched
    { loader := some "extract-text-webpack-plugin/loader.js?q!style-loader",
      loaders := none }
    "extract-text-webpack-plugin/loader.js?q!style-loader" rfl rfl (by decide)

end UniversalWebpack
